import Mathlib

/-
Verification development for the NonLinearPDEPricer repository.

The numeric model uses rationals: the Python sources compute with IEEE floats,
but every claim checked here is about exact formulas, control flow, error
propagation and state handling, none of which depend on rounding.  External
library routines (numpy log, exp, sqrt, scipy solve_banded, the L2 norm and
the cubic-spline evaluation) are not code of this repository; they are taken
as parameters of a `Lib` structure, so every theorem holds for every possible
behaviour of those routines.
-/

namespace NLPDE

/-- Equality of Except values is decidable when it is on both sides. -/
instance {ε α : Type} [DecidableEq ε] [DecidableEq α] : DecidableEq (Except ε α) :=
  fun x y =>
    match x, y with
    | Except.ok a, Except.ok b =>
        if h : a = b then isTrue (by rw [h]) else isFalse (by simp [h])
    | Except.error a, Except.error b =>
        if h : a = b then isTrue (by rw [h]) else isFalse (by simp [h])
    | Except.ok _, Except.error _ => isFalse (by simp)
    | Except.error _, Except.ok _ => isFalse (by simp)

/-- Error kinds raised by the sources: the three documented validation errors
plus the two Python runtime errors that the solver code can trigger
(TypeError from a mismatched positional call or a bad subscript, and
UnboundLocalError, modelled as nameError, from reading a never-assigned local). -/
inductive Err where
  | invalidSpot
  | invalidVol
  | missingNotional
  | typeError
  | nameError
deriving DecidableEq

/-- Element of a Python tuple passed as a volatility: either a float or
a value of some other runtime type. -/
inductive PyElem where
  | float (q : ℚ)
  | nonFloat
deriving DecidableEq

/-- Python runtime value accepted by Underlying.setVol: a float, a tuple,
or a value of any other type (Underlying.py validateVol dispatches on type). -/
inductive PyVal where
  | float (q : ℚ)
  | tuple (elems : List PyElem)
  | other
deriving DecidableEq

/-- validateSpot (Underlying.py): raises when spot <= 0.0. -/
def validateSpot (spot : ℚ) : Option Err :=
  if spot ≤ 0 then some Err.invalidSpot else none

/-- validateVol (Underlying.py): a float must be positive; a tuple must be
exactly two floats (vol_bid, vol_ask) with 0 < vol_bid <= vol_ask; any other
type is rejected. -/
def validateVol : PyVal → Option Err
  | PyVal.float v => if v ≤ 0 then some Err.invalidVol else none
  | PyVal.tuple l =>
      match l with
      | [PyElem.float b, PyElem.float a] =>
          if 0 < b ∧ b ≤ a then none else some Err.invalidVol
      | _ => some Err.invalidVol
  | PyVal.other => some Err.invalidVol

/-- Whether a Python value is a tuple (`type(vol) is tuple`). -/
def isTuple : PyVal → Bool
  | PyVal.tuple _ => true
  | _ => false

/-- The midpoint collapse performed by setReferenceVol: a validated tuple is
replaced by 0.5 * (vol_bid + vol_ask); a float is stored as is. -/
def collapseRef : PyVal → ℚ
  | PyVal.float v => v
  | PyVal.tuple l =>
      match l with
      | [PyElem.float b, PyElem.float a] => (b + a) / 2
      | _ => 0
  | PyVal.other => 0

/-- State of an Underlying (Underlying.py).  reference_vol is stored already
collapsed to a float, as every successful setReferenceVol call leaves it. -/
structure Underlying where
  spot : ℚ
  reference_spot : ℚ
  vol : PyVal
  reference_vol : ℚ
  is_non_linear : Bool
deriving DecidableEq

/-- setSpot, statement by statement: validateSpot(spot) runs first and a raise
there propagates before `self.spot = spot` executes, so on failure the object
state is returned untouched together with the error. -/
def setSpotS (u : Underlying) (spot : ℚ) : Underlying × Option Err :=
  match validateSpot spot with
  | some e => (u, some e)
  | none => ({ u with spot := spot }, none)

/-- setReferenceSpot, with the same raise-before-assign structure as setSpot. -/
def setReferenceSpotS (u : Underlying) (reference_spot : ℚ) : Underlying × Option Err :=
  match validateSpot reference_spot with
  | some e => (u, some e)
  | none => ({ u with reference_spot := reference_spot }, none)

/-- setVol: validateVol(vol) runs before the assignments to self.vol and
self.is_non_linear, so a validation failure leaves both fields untouched. -/
def setVolS (u : Underlying) (vol : PyVal) : Underlying × Option Err :=
  match validateVol vol with
  | some e => (u, some e)
  | none => ({ u with vol := vol, is_non_linear := isTuple vol }, none)

/-- setReferenceVol: validateVol runs first; on success the stored value is the
float obtained after the tuple midpoint collapse. -/
def setReferenceVolS (u : Underlying) (reference_vol : PyVal) : Underlying × Option Err :=
  match validateVol reference_vol with
  | some e => (u, some e)
  | none => ({ u with reference_vol := collapseRef reference_vol }, none)

/-- Payoff variants with their constructor parameters (Payoff.py). -/
inductive PayoffKind where
  | americanCall (strike : ℚ)
  | upAndOutCallSpread (strike upper_strike ko_barrier : ℚ)
  | downAndOutPut (strike ko_barrier rebate : ℚ)
  | doubleNoTouch (ko_barrier_down ko_barrier_up : ℚ)
deriving DecidableEq

/-- A configured payoff: variant data plus the base-class attributes
t_expiry and notional (None modelled as Option.none). -/
structure Payoff where
  kind : PayoffKind
  expiry : ℚ
  notional : Option ℚ
deriving DecidableEq

/-- The knock-out indicator helper `barrier` of Payoff.py, at one spot value:
perf = (spot - barrier) * (-1 if is_down else 1); the indicator is 1 where
perf >= 0 (inclusive at the barrier), and is complemented when is_out. -/
def barrierInd (spot bar : ℚ) (is_down is_out : Bool) : ℚ :=
  let perf := (spot - bar) * (if is_down then -1 else 1)
  let ind : ℚ := if 0 ≤ perf then 1 else 0
  if is_out then 1 - ind else ind

/-- getPayoff of each variant, at one spot value (the numpy formulas of
Payoff.py are elementwise, so the array versions are this map applied
pointwise). -/
def getPayoff (p : Payoff) (S : ℚ) : ℚ :=
  match p.kind with
  | PayoffKind.americanCall strike => max (S - strike) 0
  | PayoffKind.upAndOutCallSpread strike upper_strike ko_barrier =>
      (max (S - strike) 0 - max (S - upper_strike) 0) * barrierInd S ko_barrier false true
  | PayoffKind.downAndOutPut strike ko_barrier rebate =>
      max (strike - S) 0 * barrierInd S ko_barrier true true
        + rebate * (1 - barrierInd S ko_barrier true true)
  | PayoffKind.doubleNoTouch kd ku =>
      barrierInd S kd true true * barrierInd S ku false true

/-- getContinousBarriers (source spelling): (down, up) with none standing for
the infinite (absent) side. -/
def getContinousBarriers (p : Payoff) : Option ℚ × Option ℚ :=
  match p.kind with
  | PayoffKind.americanCall _ => (none, none)
  | PayoffKind.upAndOutCallSpread _ _ ko => (none, some ko)
  | PayoffKind.downAndOutPut _ ko _ => (some ko, none)
  | PayoffKind.doubleNoTouch kd ku => (some kd, some ku)

/-- getConstraint of each variant on an array of n nodes (arrays are modelled
as total maps from node index). -/
def getConstraint (p : Payoff) (S : ℕ → ℚ) (n : ℕ) (_t : ℚ) (sol : ℕ → ℚ) : ℕ → ℚ :=
  match p.kind with
  | PayoffKind.americanCall strike =>
      fun i => max (max (S i - strike) 0) (sol i)
  | PayoffKind.upAndOutCallSpread _ _ ko =>
      fun i => if i = n - 1 ∧ ko ≤ S (n - 1) then 0 else sol i
  | PayoffKind.downAndOutPut _ ko rebate =>
      fun i => if i = 0 ∧ S 0 ≤ ko then rebate else sol i
  | PayoffKind.doubleNoTouch kd ku =>
      fun i =>
        if i = 0 ∧ S 0 ≤ kd then 0
        else if i = n - 1 ∧ ku ≤ S (n - 1) then 0
        else sol i

/-- The pair of values returned by the getDirichletBoundaries bodies of
Payoff.py (each body has signature (self, S, t)). -/
def getDirichletValues (p : Payoff) (S : ℕ → ℚ) (n : ℕ) (_t : ℚ) : ℚ × ℚ :=
  match p.kind with
  | PayoffKind.americanCall strike => (0, max (S (n - 1) - strike) 0)
  | PayoffKind.upAndOutCallSpread _ _ _ => (0, 0)
  | PayoffKind.downAndOutPut _ _ rebate => (rebate, 0)
  | PayoffKind.doubleNoTouch _ _ => (0, 0)

/-- Number of positional parameters (self excluded) declared by
getDirichletBoundaries in each Payoff variant: every definition in Payoff.py
reads `def getDirichletBoundaries(self, S, t)`, hence two. -/
def dirichletParamCount (p : Payoff) : ℕ :=
  match p.kind with
  | PayoffKind.americanCall _ => 2
  | PayoffKind.upAndOutCallSpread _ _ _ => 2
  | PayoffKind.downAndOutPut _ _ _ => 2
  | PayoffKind.doubleNoTouch _ _ => 2

/-- Python positional-call semantics for payoff.getDirichletBoundaries: the
call succeeds with the value of the body only when the number of supplied
positional arguments equals the declared parameter count, and raises
TypeError otherwise. -/
def callGetDirichletBoundaries (p : Payoff) (S : ℕ → ℚ) (n : ℕ) (t : ℚ)
    (nbArgs : ℕ) : Except Err (ℚ × ℚ) :=
  if nbArgs = dirichletParamCount p then Except.ok (getDirichletValues p S n t)
  else Except.error Err.typeError

/-- External numerical routines used by NonLinearPDESolver.py: they belong to
numpy and scipy, not to this repository, so they are parameters of the model.
solveBanded takes the three rows of the banded matrix (super-diagonal row,
diagonal row, sub-diagonal row, in the scipy ab layout built by the code)
and the right-hand side; splineEval is CubicSpline evaluation. -/
structure Lib where
  log : ℚ → ℚ
  exp : ℚ → ℚ
  sqrt : ℚ → ℚ
  norm : ℕ → (ℕ → ℚ) → ℚ
  solveBanded : ℕ → (ℕ → ℚ) → (ℕ → ℚ) → (ℕ → ℚ) → (ℕ → ℚ) → (ℕ → ℚ)
  splineEval : ℕ → (ℕ → ℚ) → (ℕ → ℚ) → ℚ → ℚ

/-- State of a NonLinearPDESolver after __init__ (NonLinearPDESolver.py). -/
structure Engine where
  payoff : Payoff
  nb_t_steps : ℕ
  nb_x_steps : ℕ
  dT : ℚ
  dX : ℚ
  t_mesh : ℕ → ℚ
  x_mesh : ℕ → ℚ
  s_mesh : ℕ → ℚ
  nb_non_linear_iter : ℕ
  nb_non_linear_tol : ℚ

/-- Barrier narrowing of the lower mesh bound: if the down barrier is finite
and np.log(down_barrier) >= x_min, then x_min becomes np.log(down_barrier). -/
def narrowMin (lib : Lib) (downB : Option ℚ) (x0 : ℚ) : ℚ :=
  match downB with
  | some b => if x0 ≤ lib.log b then lib.log b else x0
  | none => x0

/-- Barrier narrowing of the upper mesh bound: if the up barrier is finite
and np.log(up_barrier) <= x_max, then x_max becomes np.log(up_barrier). -/
def narrowMax (lib : Lib) (upB : Option ℚ) (x1 : ℚ) : ℚ :=
  match upB with
  | some b => if lib.log b ≤ x1 then lib.log b else x1
  | none => x1

/-- The spot mesh: exp of the x mesh, then s_mesh[0] is snapped to the exact
down barrier when np.log(down_barrier) == x_min, then s_mesh[-1] is snapped to
the exact up barrier when np.log(up_barrier) == x_max (the second assignment
runs after the first, so it wins if both touch the same index). -/
def snapMesh (lib : Lib) (downB upB : Option ℚ) (x_min x_max : ℚ) (nbX : ℕ)
    (x_mesh : ℕ → ℚ) : ℕ → ℚ :=
  fun i =>
    let base := lib.exp (x_mesh i)
    let afterDown :=
      match downB with
      | some b => if lib.log b = x_min ∧ i = 0 then b else base
      | none => base
    match upB with
    | some b => if lib.log b = x_max ∧ i = nbX - 1 then b else afterDown
    | none => afterDown

/-- NonLinearPDESolver.__init__: uniform descending time mesh from expiry to 0
with retstep dT, uniform log-spot mesh on the (possibly barrier-narrowed)
range with retstep dX, and the snapped spot mesh.  np.linspace(a, b, m) is the
map i. a + i * ((b - a) / (m - 1)). -/
def buildEngine (lib : Lib) (p : Payoff) (u : Underlying) (nb_t_steps nb_x_steps : ℕ)
    (nb_std_down nb_std_up : ℚ) (nb_non_linear_iter : ℕ) (nb_non_linear_tol : ℚ) :
    Engine :=
  let dT : ℚ := (0 - p.expiry) / ((nb_t_steps : ℚ) - 1)
  let x_min0 : ℚ := lib.log u.reference_spot + nb_std_down * u.reference_vol * lib.sqrt p.expiry
  let x_max0 : ℚ := lib.log u.reference_spot + nb_std_up * u.reference_vol * lib.sqrt p.expiry
  let x_min : ℚ := narrowMin lib (getContinousBarriers p).1 x_min0
  let x_max : ℚ := narrowMax lib (getContinousBarriers p).2 x_max0
  let dX : ℚ := (x_max - x_min) / ((nb_x_steps : ℚ) - 1)
  let x_mesh : ℕ → ℚ := fun i => x_min + (i : ℚ) * dX
  { payoff := p
    nb_t_steps := nb_t_steps
    nb_x_steps := nb_x_steps
    dT := dT
    dX := dX
    t_mesh := fun i => p.expiry + (i : ℚ) * dT
    x_mesh := x_mesh
    s_mesh := snapMesh lib (getContinousBarriers p).1 (getContinousBarriers p).2
                x_min x_max nb_x_steps x_mesh
    nb_non_linear_iter := nb_non_linear_iter
    nb_non_linear_tol := nb_non_linear_tol }

/-- firstOrder = -0.5 * dT / dX (solvePDE locals). -/
def firstOrderC (dT dX : ℚ) : ℚ := -(1/2) * dT / dX

/-- secondOrder = -dT / (dX * dX) (solvePDE locals). -/
def secondOrderC (dT dX : ℚ) : ℚ := -dT / (dX * dX)

/-- halfVar = 0.5 * vol * vol, per node. -/
def halfVar (vol : ℕ → ℚ) : ℕ → ℚ := fun j => 1/2 * vol j * vol j

/-- bandedMatrix[1, :] = 1.0 + 2.0 * halfVar * secondOrder: the diagonal of
the implicit system. -/
def bandedDiag (dT dX : ℚ) (vol : ℕ → ℚ) : ℕ → ℚ :=
  fun j => 1 + 2 * halfVar vol j * secondOrderC dT dX

/-- bandedMatrix[2, k] = halfVar[k + 1] * (-firstOrder - secondOrder) for
k in [0, n - 2]: the sub-diagonal entry A[k+1, k]. -/
def bandedSub (dT dX : ℚ) (vol : ℕ → ℚ) : ℕ → ℚ :=
  fun k => halfVar vol (k + 1) * (-firstOrderC dT dX - secondOrderC dT dX)

/-- bandedMatrix[0, k + 1] = halfVar[k] * (firstOrder - secondOrder) for
k in [0, n - 2]: the super-diagonal entry A[k, k+1]. -/
def bandedSuper (dT dX : ℚ) (vol : ℕ → ℚ) : ℕ → ℚ :=
  fun k => halfVar vol k * (firstOrderC dT dX - secondOrderC dT dX)

/-- Row 0 of the scipy ab array: zero except positions 1..n-1 set to
bandedSuper shifted by one (row built from np.zeros). -/
def bandRow0 (dT dX : ℚ) (vol : ℕ → ℚ) (n : ℕ) : ℕ → ℚ :=
  fun k => if 1 ≤ k ∧ k + 1 ≤ n then bandedSuper dT dX vol (k - 1) else 0

/-- Row 2 of the scipy ab array: zero except positions 0..n-2 set to bandedSub. -/
def bandRow2 (dT dX : ℚ) (vol : ℕ → ℚ) (n : ℕ) : ℕ → ℚ :=
  fun k => if k + 2 ≤ n then bandedSub dT dX vol k else 0

/-- solveOneStep (inner function of solvePDE): builds the banded matrix, calls
payoff.getDirichletBoundaries with THREE positional arguments
(self.s_mesh, self.t_mesh[i + 1], solution_after) as at
NonLinearPDESolver.py line 64, eliminates the Dirichlet boundary contribution
from the first and last right-hand-side entries, runs the banded solve, and
applies the payoff constraint at t_mesh[i + 1]. -/
def solveOneStep (lib : Lib) (eng : Engine) (vol : ℕ → ℚ) (i : ℕ)
    (sol_before : ℕ → ℚ) : Except Err (ℕ → ℚ) :=
  let n := eng.nb_x_steps
  match callGetDirichletBoundaries eng.payoff eng.s_mesh n (eng.t_mesh (i + 1)) 3 with
  | Except.error e => Except.error e
  | Except.ok bds =>
      let rhs : ℕ → ℚ := fun j =>
        sol_before j
          - (if j = 0 then bandRow2 eng.dT eng.dX vol n 0 * bds.1 else 0)
          - (if j = n - 1 then bandRow0 eng.dT eng.dX vol n (n - 1) * bds.2 else 0)
      let solved := lib.solveBanded n (bandRow0 eng.dT eng.dX vol n)
        (bandedDiag eng.dT eng.dX vol) (bandRow2 eng.dT eng.dX vol n) rhs
      Except.ok (getConstraint eng.payoff eng.s_mesh n (eng.t_mesh (i + 1)) solved)

/-- np.sign. -/
def pySign (q : ℚ) : ℚ := if 0 < q then 1 else if q < 0 then -1 else 0

/-- The discrete gamma of the previous iterate: zero everywhere, then for
interior nodes i in [1, n - 2] set to
(1 + dX/2) * prev[i-1] - 2 * prev[i] + (1 - dX/2) * prev[i+1], and the whole
array divided by dX * dX. -/
def gammaArr (dX : ℚ) (n : ℕ) (prev : ℕ → ℚ) : ℕ → ℚ :=
  fun i =>
    (if 1 ≤ i ∧ i + 2 ≤ n then
        (1 + dX / 2) * prev (i - 1) - 2 * prev i + (1 - dX / 2) * prev (i + 1)
      else 0) / (dX * dX)

/-- optimizedVol before the edge fixups:
vol_bid + (vol_ask - vol_bid) * 0.5 * (1 + np.sign(-gamma * notional)). -/
def optVolRaw (vol_bid vol_ask notional dX : ℚ) (n : ℕ) (prev : ℕ → ℚ) : ℕ → ℚ :=
  fun i => vol_bid + (vol_ask - vol_bid) * (1/2)
      * (1 + pySign (-(gammaArr dX n prev i) * notional))

/-- optimizedVol[0] = optimizedVol[1]. -/
def setLeftEdge (f : ℕ → ℚ) : ℕ → ℚ :=
  fun j => if j = 0 then f 1 else f j

/-- optimizedVol[-1] = optimizedVol[-2], executed after the left-edge fixup. -/
def setRightEdge (n : ℕ) (f : ℕ → ℚ) : ℕ → ℚ :=
  fun j => if j = n - 1 then f (n - 2) else f j

/-- The per-node volatility used for the re-solve in one iteration of the
non-linear fixed-point loop. -/
def optimizedVol (vol_bid vol_ask notional dX : ℚ) (n : ℕ) (prev : ℕ → ℚ) : ℕ → ℚ :=
  setRightEdge n (setLeftEdge (optVolRaw vol_bid vol_ask notional dX n prev))

/-- The loop exit test: lin.norm(curr - prev) / nb_x_steps <= nb_non_linear_tol. -/
def nlConverged (lib : Lib) (n : ℕ) (tol : ℚ) (curr prev : ℕ → ℚ) : Bool :=
  decide (lib.norm n (fun j => curr j - prev j) / (n : ℚ) ≤ tol)

/-- The while loop of the non-linear case, with its iteration counter nlIter.
First argument of the recursion: the remaining budget
nb_non_linear_iter - nlIter; last argument: the current nlIter value.
With a zero initial budget the loop body never runs and the final read of
solution_curr_iter raises UnboundLocalError (nameError); otherwise each pass
computes curr = step(prev), increments the counter, stops when the exit test
holds or the budget is exhausted, and hands back the last computed iterate. -/
def nlLoopAux (step : (ℕ → ℚ) → Except Err (ℕ → ℚ))
    (conv : (ℕ → ℚ) → (ℕ → ℚ) → Bool) :
    ℕ → (ℕ → ℚ) → ℕ → Except Err ((ℕ → ℚ) × ℕ)
  | 0, _, _ => Except.error Err.nameError
  | b + 1, prev, k =>
      match step prev with
      | Except.error e => Except.error e
      | Except.ok curr =>
          if conv curr prev then Except.ok (curr, k + 1)
          else if b = 0 then Except.ok (curr, k + 1)
          else nlLoopAux step conv b curr (k + 1)

/-- One backward time step (body of `for i in range(self.nb_t_steps - 1)`):
the linear case solves once with the constant volatility array; the non-linear
case solves once with the midpoint volatility as initial guess, then runs the
fixed-point loop whose step re-solves with the optimizedVol selected from the
previous iterate.  A non-tuple volatility under a true non-linear flag would
fail Python subscripting (unreachable through the setters), modelled as
typeError. -/
def timeStep (lib : Lib) (eng : Engine) (u : Underlying) (i : ℕ)
    (sol : ℕ → ℚ) : Except Err (ℕ → ℚ) :=
  if u.is_non_linear then
    match u.vol with
    | PyVal.tuple [PyElem.float vol_bid, PyElem.float vol_ask] =>
        match solveOneStep lib eng (fun _ => (vol_bid + vol_ask) / 2) i sol with
        | Except.error e => Except.error e
        | Except.ok solution_prev_iter =>
            match nlLoopAux
                (fun prev => solveOneStep lib eng
                  (optimizedVol vol_bid vol_ask (eng.payoff.notional.getD 0)
                    eng.dX eng.nb_x_steps prev) i sol)
                (nlConverged lib eng.nb_x_steps eng.nb_non_linear_tol)
                eng.nb_non_linear_iter solution_prev_iter 0 with
            | Except.error e => Except.error e
            | Except.ok r => Except.ok r.1
    | _ => Except.error Err.typeError
  else
    match u.vol with
    | PyVal.float v => solveOneStep lib eng (fun _ => v) i sol
    | _ => Except.error Err.typeError

/-- The backward time loop: run `steps` time steps starting at index i,
threading the solution array and propagating any raise. -/
def timeLoop (lib : Lib) (eng : Engine) (u : Underlying) :
    ℕ → ℕ → (ℕ → ℚ) → Except Err (ℕ → ℚ)
  | 0, _, sol => Except.ok sol
  | steps + 1, i, sol =>
      match timeStep lib eng u i sol with
      | Except.error e => Except.error e
      | Except.ok sol1 => timeLoop lib eng u steps (i + 1) sol1

/-- Whether the spot lies strictly inside the open continuous-barrier
interval: continuous_barriers[0] < spot < continuous_barriers[1]. -/
def insideBarriers (cb : Option ℚ × Option ℚ) (spot : ℚ) : Prop :=
  (match cb.1 with
   | some b => b < spot
   | none => True)
  ∧ (match cb.2 with
     | some b => spot < b
     | none => True)

instance (cb : Option ℚ × Option ℚ) (spot : ℚ) : Decidable (insideBarriers cb spot) :=
  match cb with
  | (none, none) => inferInstanceAs (Decidable (True ∧ True))
  | (none, some b2) => inferInstanceAs (Decidable (True ∧ spot < b2))
  | (some b1, none) => inferInstanceAs (Decidable (b1 < spot ∧ True))
  | (some b1, some b2) => inferInstanceAs (Decidable (b1 < spot ∧ spot < b2))

/-- The payoff evaluated on the whole spot mesh (numpy elementwise map). -/
def getPayoffArray (p : Payoff) (S : ℕ → ℚ) : ℕ → ℚ := fun i => getPayoff p (S i)

/-- solvePDE (NonLinearPDESolver.py lines 39-106): fast path returning the
payoff at the current spot when dT >= 0 or the spot is not strictly inside
the continuous barriers; then the missing-notional validation for the
non-linear case; then terminal condition, the backward time loop, and the
spline interpolation of the final array at log(spot). -/
def solvePDE (lib : Lib) (eng : Engine) (u : Underlying) : Except Err ℚ :=
  if 0 ≤ eng.dT ∨ ¬ insideBarriers (getContinousBarriers eng.payoff) u.spot then
    Except.ok (getPayoff eng.payoff u.spot)
  else if u.is_non_linear = true
      ∧ (eng.payoff.notional = none ∨ eng.payoff.notional = some 0) then
    Except.error Err.missingNotional
  else
    match timeLoop lib eng u (eng.nb_t_steps - 1) 0
        (getConstraint eng.payoff eng.s_mesh eng.nb_x_steps (eng.t_mesh 0)
          (getPayoffArray eng.payoff eng.s_mesh)) with
    | Except.error e => Except.error e
    | Except.ok finalSol =>
        Except.ok (lib.splineEval eng.nb_x_steps eng.x_mesh finalSol (lib.log u.spot))

/-- State-threaded view of the solvePDE method call: the body of solvePDE
assigns only local variables (lines 39-106 contain no write to any self
attribute), so the engine state the call leaves behind is its input state. -/
def solvePDEState (lib : Lib) (eng : Engine) (u : Underlying) :
    Except Err ℚ × Engine :=
  (solvePDE lib eng u, eng)

/-- The 4-tuple assembled by computeGreeks from the four premiums:
(premium, delta, gamma, surprime) with the finite-difference formulas of
Greeks.py. -/
def greeks4 (premium premium_minus premium_plus premium_linear spot_bump : ℚ) :
    ℚ × ℚ × ℚ × ℚ :=
  (premium,
   100 * (premium_plus - premium_minus) / (2 * spot_bump),
   100 * (premium_plus - 2 * premium + premium_minus) / (spot_bump * spot_bump),
   premium - premium_linear)

/-- computeGreeks (Greeks.py), statement by statement, threading the shared
Underlying state and counting the solvePDE invocations.  Each raise inside a
solve or a setter propagates immediately: the function has no handler, so the
Underlying is left exactly as it was at the moment of the raise. -/
def computeGreeks (lib : Lib) (eng : Engine) (u0 : Underlying)
    (bump_for_delta : ℚ) : Except Err (ℚ × ℚ × ℚ × ℚ) × Underlying × ℕ :=
  let spot := u0.spot
  let spot_bump := bump_for_delta * spot
  match solvePDE lib eng u0 with
  | Except.error e => (Except.error e, u0, 1)
  | Except.ok premium =>
  match setSpotS u0 (spot - spot_bump) with
  | (u, some e) => (Except.error e, u, 1)
  | (u1, none) =>
  match solvePDE lib eng u1 with
  | Except.error e => (Except.error e, u1, 2)
  | Except.ok premium_minus =>
  match setSpotS u1 (spot + spot_bump) with
  | (u, some e) => (Except.error e, u, 2)
  | (u2, none) =>
  match solvePDE lib eng u2 with
  | Except.error e => (Except.error e, u2, 3)
  | Except.ok premium_plus =>
  match setSpotS u2 spot with
  | (u, some e) => (Except.error e, u, 3)
  | (u3, none) =>
  if u3.is_non_linear then
    match u3.vol with
    | PyVal.tuple [PyElem.float vol_bid, PyElem.float vol_ask] =>
        (match setVolS u3 (PyVal.float ((vol_bid + vol_ask) / 2)) with
         | (u, some e) => (Except.error e, u, 3)
         | (u4, none) =>
           match solvePDE lib eng u4 with
           | Except.error e => (Except.error e, u4, 4)
           | Except.ok premium_linear =>
             match setVolS u4 u3.vol with
             | (u, some e) => (Except.error e, u, 4)
             | (u5, none) =>
               (Except.ok (greeks4 premium premium_minus premium_plus
                  premium_linear spot_bump), u5, 4))
    | _ => (Except.error Err.typeError, u3, 3)
  else
    (Except.ok (greeks4 premium premium_minus premium_plus premium spot_bump),
     u3, 3)

/-- The volatility inputs the specification lists as rejected: a non-positive
scalar, a tuple that is not exactly two floats, or a two-float pair violating
0 < bid and bid <= ask. -/
def volRejected : PyVal → Prop
  | PyVal.float q => q ≤ 0
  | PyVal.tuple l =>
      match l with
      | [PyElem.float b, PyElem.float a] => ¬ (0 < b ∧ b ≤ a)
      | _ => True
  | PyVal.other => False

/-- The iteration count realized by the while loop for an error-free step
function: the first index at which the exit test fires, capped by the budget. -/
def nlFirstConv (f : (ℕ → ℚ) → (ℕ → ℚ)) (conv : (ℕ → ℚ) → (ℕ → ℚ) → Bool) :
    ℕ → (ℕ → ℚ) → ℕ
  | 0, _ => 0
  | b + 1, prev =>
      if conv (f prev) prev then 1
      else if b = 0 then 1
      else 1 + nlFirstConv f conv b (f prev)

section Helpers

/-- Every Payoff variant declares getDirichletBoundaries with exactly two
positional parameters besides self. -/
lemma dirichletParamCount_eq_two (p : Payoff) : dirichletParamCount p = 2 := by
  rcases p with ⟨k, e, n⟩
  cases k <;> rfl

/-- Hence the three-argument call made by the solver raises TypeError for
every variant. -/
lemma call_three_args (p : Payoff) (S : ℕ → ℚ) (n : ℕ) (t : ℚ) :
    callGetDirichletBoundaries p S n t 3 = Except.error Err.typeError := by
  unfold callGetDirichletBoundaries
  rw [dirichletParamCount_eq_two]
  norm_num

/-- solveOneStep always raises: its boundary call has the wrong arity. -/
lemma solveOneStep_raises (lib : Lib) (eng : Engine) (vol : ℕ → ℚ) (i : ℕ)
    (sol : ℕ → ℚ) : solveOneStep lib eng vol i sol = Except.error Err.typeError := by
  simp only [solveOneStep, call_three_args]

/-- Every time step therefore raises, in the linear and non-linear cases alike. -/
lemma timeStep_raises (lib : Lib) (eng : Engine) (u : Underlying) (i : ℕ)
    (sol : ℕ → ℚ) : timeStep lib eng u i sol = Except.error Err.typeError := by
  unfold timeStep
  cases hnl : u.is_non_linear
  · simp only [Bool.false_eq_true, if_false]
    split
    · rw [solveOneStep_raises]
    · rfl
  · simp only [if_true]
    split
    · rw [solveOneStep_raises]
    · rfl

/-- The fast path of solvePDE: when dT is non-negative or the spot is not
strictly inside the continuous barriers, the payoff value at the spot is
returned directly. -/
lemma solvePDE_fast (lib : Lib) (eng : Engine) (u : Underlying)
    (h : 0 ≤ eng.dT ∨ ¬ insideBarriers (getContinousBarriers eng.payoff) u.spot) :
    solvePDE lib eng u = Except.ok (getPayoff eng.payoff u.spot) := by
  unfold solvePDE
  rw [if_pos h]

/-- The missing-notional validation of solvePDE, reached only past the fast
path. -/
lemma solvePDE_missing (lib : Lib) (eng : Engine) (u : Underlying)
    (hdT : eng.dT < 0)
    (hin : insideBarriers (getContinousBarriers eng.payoff) u.spot)
    (hnl : u.is_non_linear = true)
    (hnot : eng.payoff.notional = none ∨ eng.payoff.notional = some 0) :
    solvePDE lib eng u = Except.error Err.missingNotional := by
  unfold solvePDE
  rw [if_neg (by push_neg; exact ⟨by linarith, hin⟩), if_pos ⟨hnl, hnot⟩]

/-- validateVol rejects every input in the specification list. -/
lemma validateVol_rejected (v : PyVal) (hv : volRejected v) :
    validateVol v = some Err.invalidVol := by
  cases v with
  | float q =>
      have hq : q ≤ 0 := hv
      simp [validateVol, hq]
  | tuple l =>
      match l with
      | [PyElem.float b, PyElem.float a] =>
          have hba : ¬ (0 < b ∧ b ≤ a) := hv
          simp [validateVol, hba]
      | [] => rfl
      | [x] => cases x <;> rfl
      | (PyElem.nonFloat :: _ :: _) => rfl
      | (PyElem.float _ :: PyElem.nonFloat :: _) => rfl
      | (PyElem.float _ :: PyElem.float _ :: _ :: _) => rfl
  | other => exact absurd hv (by simp [volRejected])

/-- setSpot never changes the non-linear flag. -/
lemma setSpotS_fst_nl (u : Underlying) (s : ℚ) :
    ((setSpotS u s).1).is_non_linear = u.is_non_linear := by
  unfold setSpotS
  rcases validateSpot s <;> rfl

lemma nlFirstConv_pos (f : (ℕ → ℚ) → (ℕ → ℚ)) (conv : (ℕ → ℚ) → (ℕ → ℚ) → Bool)
    (cap : ℕ) (p0 : ℕ → ℚ) (hcap : 1 ≤ cap) : 1 ≤ nlFirstConv f conv cap p0 := by
  obtain ⟨b, rfl⟩ : ∃ b, cap = b + 1 := ⟨cap - 1, by omega⟩
  by_cases hc : conv (f p0) p0
  · simp [nlFirstConv, hc]
  · by_cases hb : b = 0
    · simp [nlFirstConv, hc, hb]
    · rw [show nlFirstConv f conv (b + 1) p0 = 1 + nlFirstConv f conv b (f p0) from by
        simp [nlFirstConv, hc, hb]]
      omega

lemma nlFirstConv_le (f : (ℕ → ℚ) → (ℕ → ℚ)) (conv : (ℕ → ℚ) → (ℕ → ℚ) → Bool) :
    ∀ (cap : ℕ) (p0 : ℕ → ℚ), nlFirstConv f conv cap p0 ≤ cap := by
  intro cap
  induction cap with
  | zero =>
      intro p0
      simp [nlFirstConv]
  | succ b ih =>
      intro p0
      by_cases hc : conv (f p0) p0
      · simp [nlFirstConv, hc]
      · by_cases hb : b = 0
        · simp [nlFirstConv, hc, hb]
        · rw [show nlFirstConv f conv (b + 1) p0 = 1 + nlFirstConv f conv b (f p0) from by
            simp [nlFirstConv, hc, hb]]
          have := ih (f p0)
          omega

/-- For an error-free step, the while loop returns the nlFirstConv-th iterate
together with that iteration count. -/
lemma nlLoopAux_pure (f : (ℕ → ℚ) → (ℕ → ℚ)) (conv : (ℕ → ℚ) → (ℕ → ℚ) → Bool) :
    ∀ (cap : ℕ) (p0 : ℕ → ℚ) (k : ℕ), 1 ≤ cap →
      nlLoopAux (fun v => Except.ok (f v)) conv cap p0 k
        = Except.ok (f^[nlFirstConv f conv cap p0] p0, k + nlFirstConv f conv cap p0) := by
  intro cap
  induction cap with
  | zero =>
      intro p0 k h
      omega
  | succ b ih =>
      intro p0 k _
      by_cases hc : conv (f p0) p0
      · simp [nlLoopAux, nlFirstConv, hc]
      · by_cases hb : b = 0
        · subst hb
          simp [nlLoopAux, nlFirstConv, hc]
        · have hb1 : 1 ≤ b := by omega
          have step1 : nlLoopAux (fun v => Except.ok (f v)) conv (b + 1) p0 k
              = nlLoopAux (fun v => Except.ok (f v)) conv b (f p0) (k + 1) := by
            simp [nlLoopAux, hc, hb]
          have step2 : nlFirstConv f conv (b + 1) p0 = 1 + nlFirstConv f conv b (f p0) := by
            simp [nlFirstConv, hc, hb]
          rw [step1, step2, ih (f p0) (k + 1) hb1]
          rw [show 1 + nlFirstConv f conv b (f p0) = nlFirstConv f conv b (f p0) + 1 from by omega]
          rw [Function.iterate_succ_apply]
          congr 2
          omega

/-- Before the exit index, the convergence test is false at every iteration. -/
lemma nlFirstConv_min (f : (ℕ → ℚ) → (ℕ → ℚ)) (conv : (ℕ → ℚ) → (ℕ → ℚ) → Bool) :
    ∀ (cap : ℕ) (p0 : ℕ → ℚ) (j : ℕ), 1 ≤ j → j < nlFirstConv f conv cap p0 →
      conv (f^[j] p0) (f^[j - 1] p0) = false := by
  intro cap
  induction cap with
  | zero =>
      intro p0 j h1 h2
      simp [nlFirstConv] at h2
  | succ b ih =>
      intro p0 j h1 h2
      by_cases hc : conv (f p0) p0
      · rw [show nlFirstConv f conv (b + 1) p0 = 1 from by simp [nlFirstConv, hc]] at h2
        omega
      · by_cases hb : b = 0
        · rw [show nlFirstConv f conv (b + 1) p0 = 1 from by simp [nlFirstConv, hc, hb]] at h2
          omega
        · rw [show nlFirstConv f conv (b + 1) p0 = 1 + nlFirstConv f conv b (f p0) from by
            simp [nlFirstConv, hc, hb]] at h2
          by_cases hj1 : j = 1
          · subst hj1
            simpa using hc
          · have h1b : 1 ≤ j - 1 := by omega
            have h2b : j - 1 < nlFirstConv f conv b (f p0) := by omega
            have hmin := ih (f p0) (j - 1) h1b h2b
            rw [show f^[j - 1] (f p0) = f^[j] p0 from by
              rw [← Function.iterate_succ_apply]
              congr 1
              omega] at hmin
            rw [show f^[j - 1 - 1] (f p0) = f^[j - 1] p0 from by
              rw [← Function.iterate_succ_apply]
              congr 1
              omega] at hmin
            exact hmin

/-- If the loop stopped before exhausting the budget, the convergence test was
true at the final iteration. -/
lemma nlFirstConv_exit (f : (ℕ → ℚ) → (ℕ → ℚ)) (conv : (ℕ → ℚ) → (ℕ → ℚ) → Bool) :
    ∀ (cap : ℕ) (p0 : ℕ → ℚ), nlFirstConv f conv cap p0 < cap →
      conv (f^[nlFirstConv f conv cap p0] p0) (f^[nlFirstConv f conv cap p0 - 1] p0) = true := by
  intro cap
  induction cap with
  | zero =>
      intro p0 h
      omega
  | succ b ih =>
      intro p0 h
      by_cases hc : conv (f p0) p0
      · rw [show nlFirstConv f conv (b + 1) p0 = 1 from by simp [nlFirstConv, hc]]
        simpa using hc
      · by_cases hb : b = 0
        · rw [show nlFirstConv f conv (b + 1) p0 = 1 from by simp [nlFirstConv, hc, hb]] at h
          omega
        · have hm : nlFirstConv f conv (b + 1) p0 = 1 + nlFirstConv f conv b (f p0) := by
            simp [nlFirstConv, hc, hb]
          rw [hm] at h ⊢
          have hlt : nlFirstConv f conv b (f p0) < b := by omega
          have hexit := ih (f p0) hlt
          have hpos := nlFirstConv_pos f conv b (f p0) (by omega)
          rw [show (1 + nlFirstConv f conv b (f p0) : ℕ) = nlFirstConv f conv b (f p0) + 1 from by omega,
            Function.iterate_succ_apply]
          rw [show nlFirstConv f conv b (f p0) + 1 - 1 = (nlFirstConv f conv b (f p0) - 1) + 1 from by omega,
            Function.iterate_succ_apply]
          exact hexit

/-- The x mesh of a freshly built engine, written out. -/
lemma buildEngine_x_mesh_apply (lib : Lib) (p : Payoff) (u : Underlying)
    (nbT nbX : ℕ) (sd su : ℚ) (it : ℕ) (tol : ℚ) (i : ℕ) :
    (buildEngine lib p u nbT nbX sd su it tol).x_mesh i
      = narrowMin lib (getContinousBarriers p).1
          (lib.log u.reference_spot + sd * u.reference_vol * lib.sqrt p.expiry)
        + (i : ℚ) * ((narrowMax lib (getContinousBarriers p).2
              (lib.log u.reference_spot + su * u.reference_vol * lib.sqrt p.expiry)
            - narrowMin lib (getContinousBarriers p).1
              (lib.log u.reference_spot + sd * u.reference_vol * lib.sqrt p.expiry))
          / ((nbX : ℚ) - 1)) := rfl

/-- The spot mesh of a freshly built engine, written out. -/
lemma buildEngine_s_mesh_apply (lib : Lib) (p : Payoff) (u : Underlying)
    (nbT nbX : ℕ) (sd su : ℚ) (it : ℕ) (tol : ℚ) (i : ℕ) :
    (buildEngine lib p u nbT nbX sd su it tol).s_mesh i
      = snapMesh lib (getContinousBarriers p).1 (getContinousBarriers p).2
          (narrowMin lib (getContinousBarriers p).1
            (lib.log u.reference_spot + sd * u.reference_vol * lib.sqrt p.expiry))
          (narrowMax lib (getContinousBarriers p).2
            (lib.log u.reference_spot + su * u.reference_vol * lib.sqrt p.expiry))
          nbX ((buildEngine lib p u nbT nbX sd su it tol).x_mesh) i := rfl

end Helpers

section Fixtures

/-- A concrete instantiation of the external numerical routines, used to
evaluate the model at concrete inputs (every general theorem holds for all
such instantiations). -/
def lib0 : Lib :=
  { log := id, exp := id, sqrt := id,
    norm := fun _ _ => 0,
    solveBanded := fun _ _ _ _ rhs => rhs,
    splineEval := fun _ _ _ _ => 0 }

/-- DownAndOutPut(Strike 4200, KOBarrier 3900, Rebate 0), Expiry 1, no
notional: the payoff of the repository demo, with the notional left unset. -/
def pDOP : Payoff := { kind := PayoffKind.downAndOutPut 4200 3900 0, expiry := 1, notional := none }

/-- A non-linear Underlying with spot 3880, below the 3900 knock-out barrier. -/
def uNl : Underlying :=
  { spot := 3880, reference_spot := 3880,
    vol := PyVal.tuple [PyElem.float (1/10), PyElem.float (1/5)],
    reference_vol := 3/20, is_non_linear := true }

def engDOP : Engine := buildEngine lib0 pDOP uNl 2 5 (-6) 6 50 (1/100000000)

/-- The same Underlying moved strictly inside the barriers. -/
def uNlInside : Underlying := { uNl with spot := 4000 }

/-- The state computeGreeks leaves behind when its third solve raises:
spot bumped up by one percent and never restored. -/
def uNlAfterRaise : Underlying := { uNl with spot := 19594/5 }

/-- AmericanCall(Strike 100), Expiry 1. -/
def pAC : Payoff := { kind := PayoffKind.americanCall 100, expiry := 1, notional := none }

/-- A linear Underlying at spot 100. -/
def uLin100 : Underlying :=
  { spot := 100, reference_spot := 100, vol := PyVal.float (1/5),
    reference_vol := 1/5, is_non_linear := false }

def engAC : Engine := buildEngine lib0 pAC uLin100 2 5 (-6) 6 50 (1/100000000)

/-- AmericanCall(Strike 1) at expiry 0: every solve takes the fast path. -/
def pFast : Payoff := { kind := PayoffKind.americanCall 1, expiry := 0, notional := none }

/-- A linear Underlying at spot 2. -/
def uLin : Underlying :=
  { spot := 2, reference_spot := 2, vol := PyVal.float 1,
    reference_vol := 1, is_non_linear := false }

def engFast : Engine := buildEngine lib0 pFast uLin 2 5 (-6) 6 50 (1/100000000)

/-- DownAndOutPut with knock-out barrier 5, inside the initial mesh range of
the Underlying below. -/
def pBar : Payoff := { kind := PayoffKind.downAndOutPut 7 5 0, expiry := 1, notional := none }

/-- Reference spot 4, reference vol one half: initial log-range [1, 7]
under lib0. -/
def uBar : Underlying :=
  { spot := 4, reference_spot := 4, vol := PyVal.float (1/2),
    reference_vol := 1/2, is_non_linear := false }

/-- The constant unit volatility array. -/
def vol1 : ℕ → ℚ := fun _ => 1

/-- The all-zero solution array. -/
def zeroArr : ℕ → ℚ := fun _ => 0

end Fixtures

/-- C1 (code bug): the claim says every per-time-step implicit solve,
including its evaluation of getDirichletBoundaries(spotArray, time,
currentSolution), completes without error.  In the code the solver passes
three positional arguments while every Payoff variant declares
getDirichletBoundaries(self, S, t) with two, so whenever the fast path is not
taken and the notional validation passes, the very first time step raises
TypeError and solvePDE never completes: for every library behaviour, engine
and underlying on the PDE path, solvePDE returns the TypeError outcome. -/
theorem dirichlet_call_mismatch_raises (lib : Lib) (eng : Engine) (u : Underlying)
    (h2 : 2 ≤ eng.nb_t_steps)
    (hdT : eng.dT < 0)
    (hin : insideBarriers (getContinousBarriers eng.payoff) u.spot)
    (hval : ¬ (u.is_non_linear = true
        ∧ (eng.payoff.notional = none ∨ eng.payoff.notional = some 0))) :
    solvePDE lib eng u = Except.error Err.typeError := by
  unfold solvePDE
  rw [if_neg (by push_neg; exact ⟨by linarith, hin⟩), if_neg hval]
  obtain ⟨k, hk⟩ : ∃ k, eng.nb_t_steps - 1 = k + 1 := ⟨eng.nb_t_steps - 2, by omega⟩
  rw [hk]
  show (match timeLoop lib eng u (k + 1) 0 _ with
        | Except.error e => Except.error e
        | Except.ok finalSol =>
            Except.ok (lib.splineEval eng.nb_x_steps eng.x_mesh finalSol (lib.log u.spot)))
      = Except.error Err.typeError
  rw [show timeLoop lib eng u (k + 1) 0 _ = Except.error Err.typeError from by
    unfold timeLoop
    rw [timeStep_raises]]

/-- C1 witness: the American call demo configuration raises TypeError. -/
theorem dirichlet_call_mismatch_raises_witness :
    solvePDE lib0 engAC uLin100 = Except.error Err.typeError :=
  dirichlet_call_mismatch_raises lib0 engAC uLin100
    (by norm_num [engAC, buildEngine])
    (by norm_num [engAC, buildEngine, pAC])
    (by simp [engAC, buildEngine, insideBarriers, getContinousBarriers, pAC])
    (by simp [uLin100])

/-- C2 (confirmed): with at least two time points, if the payoff expiry is
non-positive (dT is then non-negative) or the current spot is not strictly
inside the open continuous-barrier interval, solvePDE returns exactly the
payoff evaluated at the current scalar spot, for every payoff variant, every
valid Underlying and every behaviour of the external libraries (hence no grid
computation can influence the result). -/
theorem fast_path_returns_payoff (lib : Lib) (p : Payoff) (u : Underlying)
    (nbT nbX : ℕ) (sd su : ℚ) (it : ℕ) (tol : ℚ)
    (h2 : 2 ≤ nbT)
    (hfast : p.expiry ≤ 0 ∨ ¬ insideBarriers (getContinousBarriers p) u.spot) :
    solvePDE lib (buildEngine lib p u nbT nbX sd su it tol) u
      = Except.ok (getPayoff p u.spot) := by
  apply solvePDE_fast
  rcases hfast with h | h
  · left
    show 0 ≤ (0 - p.expiry) / ((nbT : ℚ) - 1)
    have h2q : (2 : ℚ) ≤ (nbT : ℚ) := by exact_mod_cast h2
    apply div_nonneg (by linarith) (by linarith)
  · right
    exact h

/-- C2 witness: an American call engine at expiry 0 returns the intrinsic
value max(2 - 1, 0) = 1 at spot 2. -/
theorem fast_path_returns_payoff_witness :
    solvePDE lib0 (buildEngine lib0 pFast uLin 2 5 (-6) 6 50 (1/100000000)) uLin
      = Except.ok (getPayoff pFast uLin.spot) :=
  fast_path_returns_payoff lib0 pFast uLin 2 5 (-6) 6 50 (1/100000000)
    (by norm_num) (Or.inl (by norm_num [pFast]))

/-- C3 counterexample: the claim says a non-linear Underlying with an absent
notional makes solvePDE raise MissingNotionalForNonLinearPricing regardless
of the current spot.  At spot 3880, below the 3900 barrier of the demo
DownAndOutPut and with notional None on a non-linear Underlying, solvePDE
returns the rebate 0 without raising: the fast path exits first. -/
theorem notional_check_skipped_when_barrier_breached :
    uNl.is_non_linear = true ∧ pDOP.notional = none ∧ engDOP.payoff = pDOP
      ∧ solvePDE lib0 engDOP uNl = Except.ok 0 := by
  refine ⟨rfl, rfl, rfl, ?_⟩
  norm_num [solvePDE, engDOP, buildEngine, uNl, pDOP, insideBarriers,
    getContinousBarriers, getPayoff, barrierInd, narrowMin, narrowMax]

/-- C3 amended (corrected): for every payoff and spot, if the Underlying is
non-linear and the notional is None or 0.0, then solvePDE raises
MissingNotionalForNonLinearPricing, provided the fast path is not taken
(dT negative and spot strictly inside the open continuous-barrier interval);
the raise happens before any grid work. -/
theorem missing_notional_raised_on_pde_path (lib : Lib) (eng : Engine) (u : Underlying)
    (hdT : eng.dT < 0)
    (hin : insideBarriers (getContinousBarriers eng.payoff) u.spot)
    (hnl : u.is_non_linear = true)
    (hnot : eng.payoff.notional = none ∨ eng.payoff.notional = some 0) :
    solvePDE lib eng u = Except.error Err.missingNotional :=
  solvePDE_missing lib eng u hdT hin hnl hnot

/-- C3 amended witness: the same configuration with the spot moved strictly
inside the barriers does raise. -/
theorem missing_notional_raised_on_pde_path_witness :
    solvePDE lib0 engDOP uNlInside = Except.error Err.missingNotional :=
  missing_notional_raised_on_pde_path lib0 engDOP uNlInside
    (by norm_num [engDOP, buildEngine, pDOP])
    (by norm_num [engDOP, buildEngine, insideBarriers, getContinousBarriers, pDOP, uNlInside])
    rfl (Or.inl rfl)

/-- C4 counterexample: the claim says the ask endpoint is selected at every
interior node where -gamma * notional is non-negative.  With a constant
previous iterate the discrete gamma is 0 at the interior node, so
-gamma * notional = 0 is non-negative, yet the code (through np.sign(0) = 0)
selects the midpoint 3/20 of the band (1/10, 1/5), not the ask 1/5. -/
theorem vol_selection_zero_gamma_midpoint :
    0 ≤ -(gammaArr 1 3 zeroArr 1) * (-1)
      ∧ optimizedVol (1/10) (1/5) (-1) 1 3 zeroArr 1 ≠ 1/5
      ∧ optimizedVol (1/10) (1/5) (-1) 1 3 zeroArr 1 = 3/20 := by
  refine ⟨by norm_num [gammaArr, zeroArr], ?_, ?_⟩
  · norm_num [optimizedVol, setRightEdge, setLeftEdge, optVolRaw, pySign, gammaArr, zeroArr]
  · norm_num [optimizedVol, setRightEdge, setLeftEdge, optVolRaw, pySign, gammaArr, zeroArr]

/-- C4 amended (corrected): at every interior node the re-solve volatility is
the ask endpoint where -gamma * notional is strictly positive, the bid
endpoint where it is strictly negative, and the midpoint of the band where it
is exactly zero (np.sign(0) = 0); each edge node receives the same volatility
as its nearest interior neighbour. -/
theorem vol_selection_sign_rule (vol_bid vol_ask notional dX : ℚ) (n : ℕ)
    (prev : ℕ → ℚ) (hn : 2 ≤ n) :
    (∀ i, 1 ≤ i → i + 2 ≤ n →
      ((0 < -(gammaArr dX n prev i) * notional →
          optimizedVol vol_bid vol_ask notional dX n prev i = vol_ask)
       ∧ (-(gammaArr dX n prev i) * notional < 0 →
          optimizedVol vol_bid vol_ask notional dX n prev i = vol_bid)
       ∧ (-(gammaArr dX n prev i) * notional = 0 →
          optimizedVol vol_bid vol_ask notional dX n prev i = (vol_bid + vol_ask) / 2)))
    ∧ optimizedVol vol_bid vol_ask notional dX n prev 0
        = optimizedVol vol_bid vol_ask notional dX n prev 1
    ∧ optimizedVol vol_bid vol_ask notional dX n prev (n - 1)
        = optimizedVol vol_bid vol_ask notional dX n prev (n - 2) := by
  refine ⟨?_, ?_, ?_⟩
  · intro i h1 h2
    have hne0 : i ≠ 0 := by omega
    have hnen : i ≠ n - 1 := by omega
    have hval : optimizedVol vol_bid vol_ask notional dX n prev i
        = optVolRaw vol_bid vol_ask notional dX n prev i := by
      simp [optimizedVol, setRightEdge, setLeftEdge, hne0, hnen]
    refine ⟨?_, ?_, ?_⟩
    · intro hpos
      rw [hval]
      unfold optVolRaw pySign
      rw [if_pos hpos]
      ring
    · intro hneg
      rw [hval]
      unfold optVolRaw pySign
      rw [if_neg (by linarith), if_pos hneg]
      ring
    · intro hzero
      rw [hval]
      unfold optVolRaw pySign
      rw [hzero]
      norm_num
      ring
  · by_cases h2 : n = 2
    · subst h2
      simp [optimizedVol, setRightEdge, setLeftEdge]
    · have h3 : 3 ≤ n := by omega
      have hne1 : (1 : ℕ) ≠ n - 1 := by omega
      have hne0 : (0 : ℕ) ≠ n - 1 := by omega
      simp [optimizedVol, setRightEdge, setLeftEdge, hne1, hne0]
  · have hne : n - 2 ≠ n - 1 := by omega
    by_cases h2 : n - 2 = 0
    · simp [optimizedVol, setRightEdge, setLeftEdge, hne, h2]
    · simp [optimizedVol, setRightEdge, setLeftEdge, hne, h2]

/-- C4 amended witness: on a three-node grid the left edge copies node 1. -/
theorem vol_selection_sign_rule_witness :
    optimizedVol (1/10) (1/5) (-1) 1 3 zeroArr 0 = optimizedVol (1/10) (1/5) (-1) 1 3 zeroArr 1 :=
  (vol_selection_sign_rule (1/10) (1/5) (-1) 1 3 zeroArr (by norm_num)).2.1

/-- C5 (confirmed): for every step function that returns without raising and
any budget of at least one, the fixed-point while loop runs the step at most
cap times after the initial guess, the realized count is the first index at
which the normalized L2 exit test lin.norm(curr - prev) / nb_x_steps <= tol
fires (the test is false strictly before it, and true at the final iteration
whenever the loop stopped below the cap), and the returned array is the last
computed iterate whether or not the test ever fired. -/
theorem fixed_point_loop_bounded_and_stops (lib : Lib) (nx : ℕ) (tol : ℚ)
    (f : (ℕ → ℚ) → (ℕ → ℚ)) (cap : ℕ) (p0 : ℕ → ℚ) (hcap : 1 ≤ cap) :
    nlLoopAux (fun v => Except.ok (f v)) (nlConverged lib nx tol) cap p0 0
      = Except.ok (f^[nlFirstConv f (nlConverged lib nx tol) cap p0] p0,
          nlFirstConv f (nlConverged lib nx tol) cap p0)
    ∧ 1 ≤ nlFirstConv f (nlConverged lib nx tol) cap p0
    ∧ nlFirstConv f (nlConverged lib nx tol) cap p0 ≤ cap
    ∧ (∀ j, 1 ≤ j → j < nlFirstConv f (nlConverged lib nx tol) cap p0 →
        nlConverged lib nx tol (f^[j] p0) (f^[j - 1] p0) = false)
    ∧ (nlFirstConv f (nlConverged lib nx tol) cap p0 < cap →
        nlConverged lib nx tol
          (f^[nlFirstConv f (nlConverged lib nx tol) cap p0] p0)
          (f^[nlFirstConv f (nlConverged lib nx tol) cap p0 - 1] p0) = true) := by
  refine ⟨?_, ?_, ?_, ?_, ?_⟩
  · have h := nlLoopAux_pure f (nlConverged lib nx tol) cap p0 0 hcap
    simpa using h
  · exact nlFirstConv_pos f (nlConverged lib nx tol) cap p0 hcap
  · exact nlFirstConv_le f (nlConverged lib nx tol) cap p0
  · exact nlFirstConv_min f (nlConverged lib nx tol) cap p0
  · exact nlFirstConv_exit f (nlConverged lib nx tol) cap p0

/-- C5 witness: with a budget of 50 the iteration count never exceeds 50. -/
theorem fixed_point_loop_bounded_and_stops_witness :
    nlFirstConv (fun v => v) (nlConverged lib0 5 (1/100000000)) 50 zeroArr ≤ 50 :=
  (fixed_point_loop_bounded_and_stops lib0 5 (1/100000000) (fun v => v) 50 zeroArr
    (by norm_num)).2.2.1

/-- C6 (confirmed): whenever the Underlying is linear and computeGreeks
returns its 4-tuple, the surprime component is exactly zero and only three
solves were performed (premium_linear is taken equal to premium with no
fourth solve). -/
theorem linear_surprime_zero (lib : Lib) (eng : Engine) (u : Underlying) (bump : ℚ)
    (r : ℚ × ℚ × ℚ × ℚ) (uFinal : Underlying) (nSolves : ℕ)
    (hlin : u.is_non_linear = false)
    (h : computeGreeks lib eng u bump = (Except.ok r, uFinal, nSolves)) :
    r.2.2.2 = 0 ∧ nSolves = 3 := by
  simp only [computeGreeks] at h
  rcases s1 : solvePDE lib eng u with e | premium
  · simp only [s1] at h; simp at h
  · simp only [s1] at h
    rcases s2 : setSpotS u (u.spot - bump * u.spot) with ⟨ua, oe⟩
    simp only [s2] at h
    rcases oe with _ | e
    case some => simp at h
    case none =>
    have fa : ua.is_non_linear = false := by
      have := congrArg (fun z => (z.1).is_non_linear) s2
      simp only [setSpotS_fst_nl] at this
      rw [← this, hlin]
    rcases s3 : solvePDE lib eng ua with e | premium_minus
    · simp only [s3] at h; simp at h
    · simp only [s3] at h
      rcases s4 : setSpotS ua (u.spot + bump * u.spot) with ⟨ub, oe⟩
      simp only [s4] at h
      rcases oe with _ | e
      case some => simp at h
      case none =>
      have fb : ub.is_non_linear = false := by
        have := congrArg (fun z => (z.1).is_non_linear) s4
        simp only [setSpotS_fst_nl] at this
        rw [← this, fa]
      rcases s5 : solvePDE lib eng ub with e | premium_plus
      · simp only [s5] at h; simp at h
      · simp only [s5] at h
        rcases s6 : setSpotS ub u.spot with ⟨uc, oe⟩
        simp only [s6] at h
        rcases oe with _ | e
        case some => simp at h
        case none =>
        have fc : uc.is_non_linear = false := by
          have := congrArg (fun z => (z.1).is_non_linear) s6
          simp only [setSpotS_fst_nl] at this
          rw [← this, fb]
        simp only [fc, Bool.false_eq_true, if_false] at h
        have hr : greeks4 premium premium_minus premium_plus premium (bump * u.spot) = r
            ∧ uc = uFinal ∧ 3 = nSolves := by
          simpa [Prod.mk.injEq] using h
        refine ⟨?_, hr.2.2.symm⟩
        rw [← hr.1]
        simp [greeks4]

/-- C6 witness: a fast-path engine on a linear Underlying yields the 4-tuple
(1, 100, 0, 0) in exactly three solves, with surprime 0. -/
theorem linear_surprime_zero_witness :
    ((1 : ℚ), (100 : ℚ), (0 : ℚ), (0 : ℚ)).2.2.2 = 0 ∧ (3 : ℕ) = 3 :=
  linear_surprime_zero lib0 engFast uLin (1/100) (1, 100, 0, 0) uLin 3 rfl
    (by norm_num [computeGreeks, solvePDE, engFast, buildEngine, uLin, pFast,
      setSpotS, validateSpot, insideBarriers, getContinousBarriers, getPayoff,
      greeks4, narrowMin, narrowMax])

/-- C7 (code bug): the claim says computeGreeks restores the Underlying even
when an intermediate solve raises.  Starting just below the barrier of the
demo DownAndOutPut with a non-linear Underlying and no notional, the first
two solves take the fast path, the third (spot bumped up to 3918.8, inside
the barriers) raises MissingNotionalForNonLinearPricing, and computeGreeks
propagates it leaving the spot at 3918.8 instead of the entry value 3880:
there is no restore on the exception path. -/
theorem greeks_state_not_restored_on_raise :
    computeGreeks lib0 engDOP uNl (1/100)
      = (Except.error Err.missingNotional, uNlAfterRaise, 3)
    ∧ uNlAfterRaise.spot ≠ uNl.spot := by
  constructor
  · norm_num [computeGreeks, solvePDE, engDOP, buildEngine, uNl, pDOP, uNlAfterRaise,
      setSpotS, validateSpot, insideBarriers, getContinousBarriers, getPayoff, barrierInd,
      narrowMin, narrowMax]
  · norm_num [uNlAfterRaise, uNl]

/-- C8 counterexample: the claim says the diagonal coefficient equals
1 + vol^2 * dT / dX^2 and exceeds 1.  At vol = 1, dT = -1, dX = 1 the code
builds the diagonal 1 + 2 * (vol^2 / 2) * (-dT / dX^2) = 2, while the claimed
formula evaluates to 0: the claimed formula has the wrong sign on dT. -/
theorem diagonal_formula_sign_mismatch :
    bandedDiag (-1) 1 vol1 0 = 2
      ∧ bandedDiag (-1) 1 vol1 0 ≠ 1 + (vol1 0) ^ 2 * (-1) / 1 ^ 2 := by
  constructor <;> norm_num [bandedDiag, halfVar, secondOrderC, vol1]

/-- C8 amended (corrected): at every node with positive local volatility,
when dT < 0 and dX > 0 the diagonal coefficient equals
1 - vol^2 * dT / dX^2 (equivalently 1 + vol^2 * abs dT / dX^2) and is
strictly greater than 1; moreover in the operating regime dX <= 2 the row is
strictly diagonally dominant against its two off-diagonal entries. -/
theorem diagonal_dominant_formula (dT dX : ℚ) (vol : ℕ → ℚ) (j : ℕ)
    (hdT : dT < 0) (hdX : 0 < dX) (hv : 0 < vol j) :
    bandedDiag dT dX vol j = 1 - vol j * vol j * dT / (dX * dX)
    ∧ 1 < bandedDiag dT dX vol j
    ∧ (dX ≤ 2 → 1 ≤ j →
        |bandedSub dT dX vol (j - 1)| + |bandedSuper dT dX vol j|
          < bandedDiag dT dX vol j) := by
  have hso : 0 < secondOrderC dT dX := by
    unfold secondOrderC
    apply div_pos (by linarith) (by positivity)
  have hhv : 0 < halfVar vol j := by
    unfold halfVar
    positivity
  have hdiag : bandedDiag dT dX vol j = 1 + 2 * halfVar vol j * secondOrderC dT dX := rfl
  refine ⟨?_, ?_, ?_⟩
  · unfold bandedDiag halfVar secondOrderC
    ring
  · rw [hdiag]
    nlinarith
  · intro hdX2 hj
    have hfo : 0 < firstOrderC dT dX := by
      unfold firstOrderC
      apply div_pos (by linarith) hdX
    have hfole : firstOrderC dT dX ≤ secondOrderC dT dX := by
      unfold firstOrderC secondOrderC
      rw [div_le_div_iff₀ hdX (by positivity)]
      nlinarith [mul_nonneg (mul_nonneg (le_of_lt (neg_pos.mpr hdT)) (le_of_lt hdX))
        (by linarith : (0:ℚ) ≤ 2 - dX)]
    have hsub : bandedSub dT dX vol (j - 1)
        = halfVar vol j * (-firstOrderC dT dX - secondOrderC dT dX) := by
      unfold bandedSub
      congr 2
      omega
    have habs1 : |bandedSub dT dX vol (j - 1)|
        = halfVar vol j * (firstOrderC dT dX + secondOrderC dT dX) := by
      rw [hsub, abs_of_nonpos (by nlinarith)]
      ring
    have habs2 : |bandedSuper dT dX vol j|
        = halfVar vol j * (secondOrderC dT dX - firstOrderC dT dX) := by
      unfold bandedSuper
      rw [abs_of_nonpos (by nlinarith)]
      ring
    rw [habs1, habs2, hdiag]
    nlinarith

/-- C8 amended witness: at vol 1, dT = -1, dX = 1 the diagonal is 2 > 1. -/
theorem diagonal_dominant_formula_witness :
    bandedDiag (-1) 1 vol1 1 = 1 - vol1 1 * vol1 1 * (-1) / (1 * 1) :=
  (diagonal_dominant_formula (-1) 1 vol1 1 (by norm_num) (by norm_num)
    (by norm_num [vol1])).1

/-- C9 (confirmed): whenever a finite continuous barrier has its logarithm
inside the initial log-spot range, the corresponding end of the x mesh equals
log(barrier) exactly and the corresponding end of the spot mesh equals the
barrier value exactly (the snap assignment makes this hold for every exp and
log routine, normalizing away any round-trip mismatch); and a solvePDE call
leaves the whole engine state, meshes included, unchanged. -/
theorem mesh_barrier_alignment_and_immutability (lib : Lib) (p : Payoff)
    (u : Underlying) (nbT nbX : ℕ) (sd su : ℚ) (it : ℕ) (tol : ℚ)
    (hx : 2 ≤ nbX) :
    (∀ b, (getContinousBarriers p).1 = some b →
      lib.log u.reference_spot + sd * u.reference_vol * lib.sqrt p.expiry ≤ lib.log b →
      lib.log b ≤ lib.log u.reference_spot + su * u.reference_vol * lib.sqrt p.expiry →
      (buildEngine lib p u nbT nbX sd su it tol).x_mesh 0 = lib.log b
        ∧ (buildEngine lib p u nbT nbX sd su it tol).s_mesh 0 = b)
    ∧ (∀ b, (getContinousBarriers p).2 = some b →
      lib.log u.reference_spot + sd * u.reference_vol * lib.sqrt p.expiry ≤ lib.log b →
      lib.log b ≤ lib.log u.reference_spot + su * u.reference_vol * lib.sqrt p.expiry →
      (buildEngine lib p u nbT nbX sd su it tol).x_mesh (nbX - 1) = lib.log b
        ∧ (buildEngine lib p u nbT nbX sd su it tol).s_mesh (nbX - 1) = b)
    ∧ (∀ v : Underlying,
        solvePDEState lib (buildEngine lib p u nbT nbX sd su it tol) v
          = (solvePDE lib (buildEngine lib p u nbT nbX sd su it tol) v,
             buildEngine lib p u nbT nbX sd su it tol)) := by
  have hone : 1 ≤ nbX := by omega
  have hcast : ((nbX - 1 : ℕ) : ℚ) = (nbX : ℚ) - 1 := by
    push_cast [Nat.cast_sub hone]
    ring
  have hne : ((nbX : ℚ) - 1) ≠ 0 := by
    have h2q : (2 : ℚ) ≤ (nbX : ℚ) := by exact_mod_cast hx
    intro hc
    rw [sub_eq_zero] at hc
    rw [hc] at h2q
    norm_num at h2q
  have hn1ne0 : nbX - 1 ≠ 0 := by omega
  refine ⟨?_, ?_, ?_⟩
  · intro b hdown h1 h2
    have hxmin : narrowMin lib (getContinousBarriers p).1
        (lib.log u.reference_spot + sd * u.reference_vol * lib.sqrt p.expiry) = lib.log b := by
      rw [hdown]
      simp [narrowMin, h1]
    have hxmin2 : narrowMin lib (some b)
        (lib.log u.reference_spot + sd * u.reference_vol * lib.sqrt p.expiry) = lib.log b := by
      simp [narrowMin, h1]
    have hxm0 : (buildEngine lib p u nbT nbX sd su it tol).x_mesh 0 = lib.log b := by
      rw [buildEngine_x_mesh_apply, hxmin]
      ring
    refine ⟨hxm0, ?_⟩
    rw [buildEngine_s_mesh_apply]
    unfold snapMesh
    rcases hup : (getContinousBarriers p).2 with _ | b2
    · rw [hdown]
      simp [hxmin2]
    · rw [hdown]
      simp only []
      rw [if_neg (by
        intro hcontra
        exact hn1ne0 hcontra.2.symm)]
      simp [hxmin2]
  · intro b hup h1 h2
    have hxmax : narrowMax lib (getContinousBarriers p).2
        (lib.log u.reference_spot + su * u.reference_vol * lib.sqrt p.expiry) = lib.log b := by
      rw [hup]
      simp [narrowMax, h2]
    have hxmax2 : narrowMax lib (some b)
        (lib.log u.reference_spot + su * u.reference_vol * lib.sqrt p.expiry) = lib.log b := by
      simp [narrowMax, h2]
    have hxml : (buildEngine lib p u nbT nbX sd su it tol).x_mesh (nbX - 1) = lib.log b := by
      rw [buildEngine_x_mesh_apply, hxmax, hcast]
      field_simp
    refine ⟨hxml, ?_⟩
    rw [buildEngine_s_mesh_apply]
    unfold snapMesh
    rw [hup]
    simp [hxmax2]
  · intro v
    rfl

/-- C9 witness: the down barrier 5 of pBar lies inside the initial log-range
[1, 7] of uBar under lib0, and the built meshes carry it exactly at node 0. -/
theorem mesh_barrier_alignment_and_immutability_witness :
    (buildEngine lib0 pBar uBar 3 4 (-6) 6 50 (1/100000000)).x_mesh 0 = lib0.log 5
      ∧ (buildEngine lib0 pBar uBar 3 4 (-6) 6 50 (1/100000000)).s_mesh 0 = 5 :=
  (mesh_barrier_alignment_and_immutability lib0 pBar uBar 3 4 (-6) 6 50 (1/100000000)
      (by norm_num)).1 5 rfl
    (by norm_num [lib0, uBar, pBar])
    (by norm_num [lib0, uBar, pBar])

/-- C10 (confirmed): every Underlying setter validates before assigning, so a
rejected input (non-positive spot for the spot setters; non-positive scalar,
malformed tuple, or disordered pair for the volatility setters) raises with
the whole Underlying state, non-linear flag included, exactly as it was. -/
theorem setters_atomic_on_failure (u : Underlying) :
    (∀ s : ℚ, s ≤ 0 →
      setSpotS u s = (u, some Err.invalidSpot)
        ∧ setReferenceSpotS u s = (u, some Err.invalidSpot))
    ∧ (∀ v : PyVal, volRejected v →
      setVolS u v = (u, some Err.invalidVol)
        ∧ setReferenceVolS u v = (u, some Err.invalidVol)) := by
  constructor
  · intro s hs
    constructor <;> simp [setSpotS, setReferenceSpotS, validateSpot, hs]
  · intro v hv
    constructor <;> simp [setVolS, setReferenceVolS, validateVol_rejected v hv]

/-- C10 witness: setSpot(-1) on a concrete Underlying raises InvalidSpot and
leaves the state untouched. -/
theorem setters_atomic_on_failure_witness :
    setSpotS uLin (-1) = (uLin, some Err.invalidSpot) :=
  ((setters_atomic_on_failure uLin).1 (-1) (by norm_num)).1

end NLPDE
